import Mathlib

set_option maxHeartbeats 1000000

deriving instance DecidableEq for Except

namespace Neon

/-!
Shallow embedding of the attachment control plane core of this repository:
the key-to-shard mapping (libs/pageserver_api/src/shard.rs), the reconciler
(control_plane/attachment_service/src/reconciler.rs) and the node-configure
HTTP handler (control_plane/attachment_service/src/http.rs).

Machine integers are embedded as Nat with explicit reductions modulo 2^32
or 2^8 where the Rust code casts or can wrap.  Fallible code returns Option
or Except.  I/O performed by the reconciler (HTTP PUTs to pageservers,
timeline listing, the compute-hook call) is modelled by an explicit
environment supplying the outcome of each call, and runs produce a trace of
emitted wire events.
-/

/-! ### Identifiers (opaque ids embedded as Nat) -/

abbrev NodeId := Nat
abbrev TimelineId := Nat
abbrev Lsn := Nat

/-- Tenant configuration payload.  Its contents are irrelevant to the
reconciler, which only clones and compares it; embedded as an opaque Nat. -/
abbrev TenantConfig := Nat

/-- Modelled from the spec: Generation is a u32 epoch wrapper owned by the
controller (utils::generation, not under src/).  Embedded as Nat. -/
abbrev Generation := Nat

/-- Modelled from the spec: Generation::next advances the epoch by one. -/
def Generation.next (g : Generation) : Generation := g + 1

/-! ### Key and the key-to-shard mapping (libs/pageserver_api/src/shard.rs)

The Key struct (libs/pageserver_api/src/key.rs) has six fields: field1 is a
u8, fields 2-4 and 6 are u32 (field6 is the block number).  The hash used by
key_to_shard_number is the mur3 crate's 32-bit murmur3 hasher, seeded with 0,
fed field1 as one byte and fields 2-4 as little-endian u32, i.e. murmur3
x86/32 of the 13-byte stream. -/

structure Key where
  field1 : Nat
  field2 : Nat
  field3 : Nat
  field4 : Nat
  field5 : Nat
  field6 : Nat
deriving DecidableEq, Repr

/-- 2^32, the u32 modulus. -/
def m32 : Nat := 4294967296

/-- Rotate a 32-bit value left by r bits (0 < r < 32, x < 2^32). -/
def rotl32 (x r : Nat) : Nat := (x % 2 ^ (32 - r)) * 2 ^ r + x / 2 ^ (32 - r)

def murc1 : Nat := 3432918353
def murc2 : Nat := 461845907

/-- The murmur3 per-chunk mixing of k1. -/
def murmurMixK (k : Nat) : Nat := (rotl32 ((k * murc1) % m32) 15 * murc2) % m32

/-- The murmur3 body step combining a mixed chunk into h1. -/
def murmurMixH (h k : Nat) : Nat :=
  ((rotl32 (h ^^^ murmurMixK k) 13) * 5 + 3864292196) % m32

/-- Consume the byte stream in 4-byte little-endian chunks, returning the
accumulated h1 and the remaining tail bytes. -/
def murmurBody : Nat → List Nat → Nat × List Nat
  | h, b0 :: b1 :: b2 :: b3 :: rest =>
      murmurBody (murmurMixH h (b0 + b1 * 256 + b2 * 65536 + b3 * 16777216)) rest
  | h, rest => (h, rest)

/-- Combine up to three tail bytes little-endian. -/
def leCombine : List Nat → Nat
  | [] => 0
  | b :: rest => b + 256 * leCombine rest

/-- murmur3 finalization: xor in the length, then fmix32. -/
def murmurFinish (h len : Nat) : Nat :=
  let h0 := h ^^^ len
  let h1 := h0 ^^^ (h0 / 65536)
  let h2 := (h1 * 2246822507) % m32
  let h3 := h2 ^^^ (h2 / 8192)
  let h4 := (h3 * 3266489909) % m32
  h4 ^^^ (h4 / 65536)

/-- murmur3 x86/32 of a byte stream with the given seed (the mur3 crate's
Hasher32 over the concatenated writes). -/
def murmur3_32 (bytes : List Nat) (seed : Nat) : Nat :=
  let body := murmurBody seed bytes
  let h := if body.2 = [] then body.1 else body.1 ^^^ murmurMixK (leCombine body.2)
  murmurFinish h bytes.length

/-- The four bytes of a u32, little-endian. -/
def le4 (x : Nat) : List Nat :=
  [x % 256, x / 256 % 256, x / 65536 % 256, x / 16777216 % 256]

/-- The byte stream hashed by key_to_shard_number: field1 as one byte,
then fields 2, 3, 4 as little-endian u32 (13 bytes in total). -/
def keyBytes (key : Key) : List Nat :=
  key.field1 % 256 :: (le4 key.field2 ++ le4 key.field3 ++ le4 key.field4)

/-- The stable 32-bit hash over the key prefix (fields 1-4), seed 0. -/
def keyPrefixHash (key : Key) : Nat := murmur3_32 (keyBytes key) 0

/-- ShardNumber::within_count from shard.rs: self.0 < rhs.0. -/
def within_count (self rhs : Nat) : Bool := self < rhs

/-- Shallow embedding of key_to_shard_number from shard.rs.  ShardCount and
ShardStripeSize newtypes are flattened to Nat (u8 and u32 respectively).
Rust u32 division by zero panics, so a zero stripe_size reached on the
sharded path yields none.  The u32 addition hash + blkno / stripe_size can
wrap, hence the reduction modulo 2^32; the result is cast to u8 (the
`stripe as u8`, i.e. modulo 256) before the modulo by count. -/
def key_to_shard_number (count stripe_size : Nat) (key : Key) : Option Nat :=
  if count = 0 then some 0
  else if stripe_size = 0 then none
  else
    let hash := keyPrefixHash key
    let blkno := key.field6
    let stripe := (hash + blkno / stripe_size) % m32
    some (stripe % 256 % count)

/-- The key-to-shard mapping as the specification words it (refinement
comparison definition, written from the spec sentence, not from the source):
the hash over the key prefix, added to block_number / stripe_size, taken
modulo count, with the degenerate count == 0 case mapping to shard 0. -/
def key_to_shard_number_spec (count stripe_size : Nat) (key : Key) : Option Nat :=
  if count = 0 then some 0
  else if stripe_size = 0 then none
  else some ((keyPrefixHash key + key.field6 / stripe_size) % m32 % count)

/-! ### Location configuration data model

LocationConfig and its mode enum live in pageserver_api::models (not under
src/); their shape is fixed by the construction sites in reconciler.rs
(build_location_config, attached_location_conf, secondary_location_conf and
the inline Detached literal) and by the spec's PUT body
{mode, generation, secondary_conf, tenant_conf, shard_number, shard_count,
shard_stripe_size}. -/

inductive LocationConfigMode
  | Detached
  | Secondary
  | AttachedSingle
  | AttachedMulti
  | AttachedStale
deriving DecidableEq, Repr

structure LocationConfigSecondary where
  warm : Bool
deriving DecidableEq, Repr

structure LocationConfig where
  mode : LocationConfigMode
  generation : Option Nat
  secondary_conf : Option LocationConfigSecondary
  tenant_conf : TenantConfig
  shard_number : Nat
  shard_count : Nat
  shard_stripe_size : Nat
deriving DecidableEq, Repr

/-- ShardIdentity from shard.rs; the u8/u32 newtype fields are flattened. -/
structure ShardIdentity where
  layout : Nat
  number : Nat
  count : Nat
  stripe_size : Nat
deriving DecidableEq, Repr

/-- NodeAvailability from control_plane::attachment_service (used by
reconciler.rs only through the Offline check). -/
inductive NodeAvailability
  | Active
  | Offline
deriving DecidableEq, Repr

/-- Modelled from the spec: NodeSchedulingPolicy (§3). -/
inductive NodeSchedulingPolicy
  | Active
  | Filling
  | Pause
  | Draining
deriving DecidableEq, Repr

/-- The registry entry for a pageserver, as the reconciler's snapshot sees
it (crate::node::Node, not under src/; the reconciler reads only id and
availability). -/
structure Node where
  id : NodeId
  availability : NodeAvailability
deriving DecidableEq, Repr

/-- Modelled from the spec: IntentState from tenant_state.rs (§3,
intent: \x7b attached: Option<NodeId>, secondary: Set<NodeId> \x7d). -/
structure IntentState where
  attached : Option NodeId
  secondary : List NodeId
deriving DecidableEq, Repr

/-- ObservedStateLocation from tenant_state.rs: the conf is None when the
controller is uncertain what the node holds. -/
structure ObservedStateLocation where
  conf : Option LocationConfig
deriving DecidableEq, Repr

/-- ObservedState from tenant_state.rs: a HashMap<NodeId,
ObservedStateLocation>, embedded as an association list with unique keys. -/
structure ObservedState where
  locations : List (NodeId × ObservedStateLocation)
deriving DecidableEq, Repr

/-- Association-list lookup (HashMap::get). -/
def alookup {α : Type} : List (Nat × α) → Nat → Option α
  | [], _ => none
  | (k, v) :: rest, key => if k = key then some v else alookup rest key

/-- Association-list insert-or-replace (HashMap::insert). -/
def ainsert {α : Type} : List (Nat × α) → Nat → α → List (Nat × α)
  | [], key, v => [(key, v)]
  | (k, w) :: rest, key, v =>
      if k = key then (key, v) :: rest else (k, w) :: ainsert rest key v

/-- Modelled from the spec: IntentState::all_pageservers, the set of nodes
referenced by the intent (attached plus secondaries, §4.5.2 step 3). -/
def IntentState.all_pageservers (i : IntentState) : List NodeId :=
  (match i.attached with
   | some n => [n]
   | none => []) ++ i.secondary

/-! ### Reconciler I/O model

The reconciler's effects are HTTP PUTs of location configs, timeline-list
reads (LSNs) and one compute-hook call.  An Env fixes the outcome of each:
putOutcome gives the result of a location_config PUT for a node and config,
originLsns the origin's timeline->last_record_lsn map (none = RPC failure),
destPolls the successive timeline-list reads of the destination during LSN
catch-up polling (none = transient RPC failure, retried), and notifyOk
whether the compute hook call succeeds.  A run returns the final reconciler
state, the trace of emitted events in order, and the Rust Result. -/

inductive PutOutcome
  | ok2xx
  | transportErr
  | statusErr
deriving DecidableEq, Repr

inductive Event
  | putLoc (node : NodeId) (conf : LocationConfig)
  | getLsns (node : NodeId)
  | notifyCompute (tenant : Nat) (node : NodeId)
deriving DecidableEq, Repr

inductive RErr
  | putTransport
  | putStatus
  | lsnsErr
  | notifyErr
  | panicked
  | stalled
deriving DecidableEq, Repr

structure Env where
  putOutcome : NodeId → LocationConfig → PutOutcome
  originLsns : Option (List (TimelineId × Lsn))
  destPolls : List (Option (List (TimelineId × Lsn)))
  notifyOk : Bool

/-- The reconciler task snapshot (reconciler.rs, struct Reconciler); the
compute-hook handle and cancellation token are part of the I/O model. -/
structure Reconciler where
  tenant_shard_id : Nat
  shard : ShardIdentity
  generation : Generation
  intent : IntentState
  config : TenantConfig
  observed : ObservedState
  pageservers : List (NodeId × Node)
deriving DecidableEq, Repr

/-- attached_location_conf from reconciler.rs. -/
def attached_location_conf (generation : Generation) (shard : ShardIdentity)
    (config : TenantConfig) : LocationConfig :=
  { mode := LocationConfigMode.AttachedSingle
    generation := some generation
    secondary_conf := none
    shard_number := shard.number
    shard_count := shard.count
    shard_stripe_size := shard.stripe_size
    tenant_conf := config }

/-- secondary_location_conf from reconciler.rs. -/
def secondary_location_conf (shard : ShardIdentity) (config : TenantConfig) :
    LocationConfig :=
  { mode := LocationConfigMode.Secondary
    generation := none
    secondary_conf := some { warm := true }
    shard_number := shard.number
    shard_count := shard.count
    shard_stripe_size := shard.stripe_size
    tenant_conf := config }

/-- Reconciler::location_config.  The source looks the node up in the
snapshot (panicking if absent, before touching observed state), inserts
observed[node] = None, issues the PUT (a transport failure propagates via ?
with observed left None), then inserts observed[node] = Some(config), and
only after that checks the status code with error_for_status, so a non-2xx
response propagates an error while observed[node] stays Some(config). -/
def Reconciler.location_config (r : Reconciler) (node_id : NodeId)
    (config : LocationConfig) (outcome : PutOutcome) :
    Reconciler × List Event × Except RErr Unit :=
  match alookup r.pageservers node_id with
  | none => (r, [], Except.error RErr.panicked)
  | some node =>
    let r1 : Reconciler :=
      { r with observed := ⟨ainsert r.observed.locations node.id ⟨none⟩⟩ }
    match outcome with
    | PutOutcome.transportErr =>
        (r1, [Event.putLoc node_id config], Except.error RErr.putTransport)
    | PutOutcome.ok2xx =>
        ({ r1 with observed := ⟨ainsert r1.observed.locations node.id ⟨some config⟩⟩ },
         [Event.putLoc node_id config], Except.ok ())
    | PutOutcome.statusErr =>
        ({ r1 with observed := ⟨ainsert r1.observed.locations node.id ⟨some config⟩⟩ },
         [Event.putLoc node_id config], Except.error RErr.putStatus)

/-- build_location_config, local to Reconciler::live_migrate.  Generation::into
is Some, so generation.map(into.unwrap) is the argument itself. -/
def build_location_config (shard : ShardIdentity) (config : TenantConfig)
    (mode : LocationConfigMode) (generation : Option Generation)
    (secondary_conf : Option LocationConfigSecondary) : LocationConfig :=
  { mode := mode
    generation := generation
    secondary_conf := secondary_conf
    tenant_conf := config
    shard_number := shard.number
    shard_count := shard.count
    shard_stripe_size := shard.stripe_size }

/-- The catch-up test of await_lsn: the destination is behind if any baseline
timeline has latest < baseline or is missing from the destination's list. -/
def lsnsCaughtUp (baseline latest : List (TimelineId × Lsn)) : Bool :=
  baseline.all fun p =>
    match alookup latest p.1 with
    | some latest_lsn => decide (p.2 ≤ latest_lsn)
    | none => false

/-- await_lsn, local to Reconciler::live_migrate: poll the destination's
timeline list (each poll emits one getLsns), retrying after errors, until
caught up.  The loop in the source has no exit on failure; exhausting the
polls the environment provides models the loop not terminating (none). -/
def await_lsn (dest : NodeId) (baseline : List (TimelineId × Lsn)) :
    List (Option (List (TimelineId × Lsn))) → List Event × Option Unit
  | [] => ([], none)
  | poll :: rest =>
    match poll with
    | none =>
        let next := await_lsn dest baseline rest
        (Event.getLsns dest :: next.1, next.2)
    | some latest =>
        if lsnsCaughtUp baseline latest then ([Event.getLsns dest], some ())
        else
          let next := await_lsn dest baseline rest
          (Event.getLsns dest :: next.1, next.2)

/-- Reconciler::live_migrate.  The asserted precondition origin != dest is a
panic.  PUTs here go through PageServerNode::location_config, which does not
touch observed state; only the origin-Secondary and destination-final PUTs
are followed by explicit observed inserts (the TODO in the source).  Each
step awaits success before the next; any failure propagates immediately. -/
def Reconciler.live_migrate (r : Reconciler) (origin dest : NodeId) (env : Env) :
    Reconciler × List Event × Except RErr Unit :=
  if origin = dest then (r, [], Except.error RErr.panicked)
  else
    let stale_conf := build_location_config r.shard r.config
      LocationConfigMode.AttachedStale (some r.generation) none
    match env.putOutcome origin stale_conf with
    | PutOutcome.transportErr =>
        (r, [Event.putLoc origin stale_conf], Except.error RErr.putTransport)
    | PutOutcome.statusErr =>
        (r, [Event.putLoc origin stale_conf], Except.error RErr.putStatus)
    | PutOutcome.ok2xx =>
      match env.originLsns with
      | none =>
          (r, [Event.putLoc origin stale_conf, Event.getLsns origin],
           Except.error RErr.lsnsErr)
      | some baseline =>
        let r2 : Reconciler := { r with generation := Generation.next r.generation }
        let dest_conf := build_location_config r2.shard r2.config
          LocationConfigMode.AttachedMulti (some r2.generation) none
        let t1 := [Event.putLoc origin stale_conf, Event.getLsns origin,
                   Event.putLoc dest dest_conf]
        match env.putOutcome dest dest_conf with
        | PutOutcome.transportErr => (r2, t1, Except.error RErr.putTransport)
        | PutOutcome.statusErr => (r2, t1, Except.error RErr.putStatus)
        | PutOutcome.ok2xx =>
          let poll := await_lsn dest baseline env.destPolls
          match poll.2 with
          | none => (r2, t1 ++ poll.1, Except.error RErr.stalled)
          | some _ =>
            let t2 := t1 ++ poll.1 ++ [Event.notifyCompute r2.tenant_shard_id dest]
            if env.notifyOk = false then (r2, t2, Except.error RErr.notifyErr)
            else
              let origin_secondary_conf := build_location_config r2.shard r2.config
                LocationConfigMode.Secondary none (some { warm := true })
              match env.putOutcome origin origin_secondary_conf with
              | PutOutcome.transportErr =>
                  (r2, t2 ++ [Event.putLoc origin origin_secondary_conf],
                   Except.error RErr.putTransport)
              | PutOutcome.statusErr =>
                  (r2, t2 ++ [Event.putLoc origin origin_secondary_conf],
                   Except.error RErr.putStatus)
              | PutOutcome.ok2xx =>
                let r3 : Reconciler := { r2 with observed :=
                  ⟨ainsert r2.observed.locations origin ⟨some origin_secondary_conf⟩⟩ }
                let dest_final_conf := build_location_config r3.shard r3.config
                  LocationConfigMode.AttachedSingle (some r3.generation) none
                let t3 := t2 ++ [Event.putLoc origin origin_secondary_conf,
                                 Event.putLoc dest dest_final_conf]
                match env.putOutcome dest dest_final_conf with
                | PutOutcome.transportErr => (r3, t3, Except.error RErr.putTransport)
                | PutOutcome.statusErr => (r3, t3, Except.error RErr.putStatus)
                | PutOutcome.ok2xx =>
                    ({ r3 with observed :=
                        ⟨ainsert r3.observed.locations dest ⟨some dest_final_conf⟩⟩ },
                     t3, Except.ok ())

/-- The destination test of Reconciler::maybe_live_migrate for the intended
attached node: fall through to a live migration when the node has no
observed entry at all, or when its observed config is Some with mode
Secondary; an uncertain (None) or otherwise-moded config means no
migration. -/
def destinationDecision (r : Reconciler) (node_id : NodeId) : Bool :=
  match alookup r.observed.locations node_id with
  | some loc =>
    match loc.conf with
    | some conf => if conf.mode = LocationConfigMode.Secondary then true else false
    | none => false
  | none => true

/-- The origin scan of Reconciler::maybe_live_migrate: the first observed
entry holding an AttachedSingle config whose node is not Offline.  The
snapshot lookup panics (expect) if such a node is missing from the
pageservers map; an Offline AttachedSingle node is skipped without break. -/
def findOrigin (pageservers : List (NodeId × Node)) :
    List (NodeId × ObservedStateLocation) → Except RErr (Option NodeId)
  | [] => Except.ok none
  | (node_id, state) :: rest =>
    match state.conf with
    | some observed_conf =>
      if observed_conf.mode = LocationConfigMode.AttachedSingle then
        match alookup pageservers node_id with
        | none => Except.error RErr.panicked
        | some node =>
          if node.availability = NodeAvailability.Offline then findOrigin pageservers rest
          else Except.ok (some node_id)
      else findOrigin pageservers rest
    | none => findOrigin pageservers rest

/-- The decision part of Reconciler::maybe_live_migrate: the (origin,
destination) pair to migrate, none when falling through to the general
case, or the panic from the origin scan. -/
def Reconciler.live_migrate_target (r : Reconciler) :
    Except RErr (Option (NodeId × NodeId)) :=
  match r.intent.attached with
  | none => Except.ok none
  | some node_id =>
    if destinationDecision r node_id then
      match findOrigin r.pageservers r.observed.locations with
      | Except.error e => Except.error e
      | Except.ok none => Except.ok none
      | Except.ok (some origin) => Except.ok (some (origin, node_id))
    else Except.ok none

/-- Reconciler::maybe_live_migrate: run live_migrate on the chosen pair, or
return Ok(()) without any action.  (The source resolves the two NodeIds to
PageServerNode clients via the LocalEnv config; the ids are carried
directly here.) -/
def Reconciler.maybe_live_migrate (r : Reconciler) (env : Env) :
    Reconciler × List Event × Except RErr Unit :=
  match Reconciler.live_migrate_target r with
  | Except.error e => (r, [], Except.error e)
  | Except.ok none => (r, [], Except.ok ())
  | Except.ok (some p) => Reconciler.live_migrate r p.1 p.2 env

/-- The attached-update arm of Reconciler::reconcile: bump the generation,
stamp it into the wanted config, apply it via location_config, and on
success notify the compute hook, a failure of which is only logged. -/
def Reconciler.update_attached (r : Reconciler) (env : Env) (node_id : NodeId)
    (wanted0 : LocationConfig) : Reconciler × List Event × Except RErr Unit :=
  let r2 : Reconciler := { r with generation := Generation.next r.generation }
  let wanted_conf := { wanted0 with generation := some r2.generation }
  let step := Reconciler.location_config r2 node_id wanted_conf
    (env.putOutcome node_id wanted_conf)
  match step.2.2 with
  | Except.error e => (step.1, step.2.1, Except.error e)
  | Except.ok _ =>
      (step.1, step.2.1 ++ [Event.notifyCompute step.1.tenant_shard_id node_id],
       Except.ok ())

/-- The Detached config built inline in Reconciler::reconcile. -/
def detached_conf (shard : ShardIdentity) (config : TenantConfig) : LocationConfig :=
  { mode := LocationConfigMode.Detached
    generation := none
    secondary_conf := none
    shard_number := shard.number
    shard_count := shard.count
    shard_stripe_size := shard.stripe_size
    tenant_conf := config }

/-- The secondary-location changes queued by Reconciler::reconcile: every
intended secondary whose observed config is absent, uncertain, or differs
from the wanted Secondary(warm) config. -/
def secondaryChanges (r : Reconciler) : List (NodeId × LocationConfig) :=
  r.intent.secondary.filterMap fun node_id =>
    let wanted_conf := secondary_location_conf r.shard r.config
    match alookup r.observed.locations node_id with
    | some loc => if loc.conf = some wanted_conf then none else some (node_id, wanted_conf)
    | none => some (node_id, wanted_conf)

/-- The detach changes queued by Reconciler::reconcile: every observed node
not referenced by the intent gets the Detached config. -/
def detachChanges (r : Reconciler) : List (NodeId × LocationConfig) :=
  (r.observed.locations.map Prod.fst).filterMap fun node_id =>
    if (IntentState.all_pageservers r.intent).contains node_id then none
    else some (node_id, detached_conf r.shard r.config)

/-- Execute the queued changes in order through location_config, stopping at
the first propagated error. -/
def Reconciler.applyChanges (r : Reconciler) (env : Env) :
    List (NodeId × LocationConfig) → Reconciler × List Event × Except RErr Unit
  | [] => (r, [], Except.ok ())
  | (node_id, conf) :: rest =>
    let step := Reconciler.location_config r node_id conf (env.putOutcome node_id conf)
    match step.2.2 with
    | Except.error e => (step.1, step.2.1, Except.error e)
    | Except.ok _ =>
      let next := Reconciler.applyChanges step.1 env rest
      (next.1, step.2.1 ++ next.2.1, next.2.2)

/-- The general-case part of Reconciler::reconcile (everything after the
live-migration special case): ensure the intended attached location holds
the wanted AttachedSingle config, then queue and execute the secondary and
detach changes. -/
def Reconciler.reconcile_general (r : Reconciler) (env : Env) :
    Reconciler × List Event × Except RErr Unit :=
  let afterAttached : Reconciler × List Event × Except RErr Unit :=
    match r.intent.attached with
    | none => (r, [], Except.ok ())
    | some node_id =>
      let wanted_conf := attached_location_conf r.generation r.shard r.config
      match alookup r.observed.locations node_id with
      | some loc =>
        if loc.conf = some wanted_conf then (r, [], Except.ok ())
        else Reconciler.update_attached r env node_id wanted_conf
      | none => Reconciler.update_attached r env node_id wanted_conf
  match afterAttached.2.2 with
  | Except.error _ => afterAttached
  | Except.ok _ =>
    let tail := Reconciler.applyChanges afterAttached.1 env
      (secondaryChanges afterAttached.1 ++ detachChanges afterAttached.1)
    (tail.1, afterAttached.2.1 ++ tail.2.1, tail.2.2)

/-- Reconciler::reconcile: the live-migration special case first (its error
propagates), then the general case. -/
def Reconciler.reconcile (r : Reconciler) (env : Env) :
    Reconciler × List Event × Except RErr Unit :=
  let mig := Reconciler.maybe_live_migrate r env
  match mig.2.2 with
  | Except.error _ => mig
  | Except.ok _ =>
    let gen := Reconciler.reconcile_general mig.1 env
    (gen.1, mig.2.1 ++ gen.2.1, gen.2.2)

/-! ### HTTP node-configure handler (http.rs) -/

/-- The surface error kinds of utils::http::error::ApiError used by the
handlers (§7 of the spec). -/
inductive ApiError
  | badRequest
  | notFound
  | conflict
  | internalErr
  | shuttingDown
deriving DecidableEq, Repr

/-- Modelled from the spec: NodeConfigureRequest carries the node id and the
availability and/or scheduling updates (§4.2, §4.7 node_configure). -/
structure NodeConfigureRequest where
  node_id : NodeId
  availability : Option NodeAvailability
  scheduling : Option NodeSchedulingPolicy
deriving DecidableEq, Repr

/-- handle_node_configure from http.rs: reject with BadRequest when the path
node_id differs from the body node_id, otherwise dispatch to the service's
node_configure.  The Bool records whether node_configure was invoked. -/
def handle_node_configure (node_configure : NodeConfigureRequest → Except ApiError Unit)
    (path_node_id : NodeId) (body : NodeConfigureRequest) :
    Except ApiError Unit × Bool :=
  if path_node_id ≠ body.node_id then (Except.error ApiError.badRequest, false)
  else (node_configure body, true)

/-! ### Concrete fixtures used by counterexamples and witnesses -/

/-- An unsharded shard identity (layout 1, shard 0 of 1, default stripe). -/
def shard0 : ShardIdentity := { layout := 1, number := 0, count := 1, stripe_size := 32768 }

/-- An environment where every remote call succeeds immediately: all PUTs
return 2xx, the origin LSN read returns an empty timeline set, the first
destination poll already shows catch-up, and the compute hook succeeds. -/
def envAllOk : Env :=
  { putOutcome := fun _ _ => PutOutcome.ok2xx
    originLsns := some []
    destPolls := [some []]
    notifyOk := true }

/-- A migration scenario: intent moves the attachment to node 2, node 1 is
observed AttachedSingle at generation 1, node 2 observed Secondary, both
nodes Active. -/
def rMig : Reconciler :=
  { tenant_shard_id := 7
    shard := shard0
    generation := 1
    intent := { attached := some 2, secondary := [] }
    config := 0
    observed := ⟨[(1, ⟨some (attached_location_conf 1 shard0 0)⟩),
                  (2, ⟨some (secondary_location_conf shard0 0)⟩)]⟩
    pageservers := [(1, ⟨1, NodeAvailability.Active⟩), (2, ⟨2, NodeAvailability.Active⟩)] }

/-- The migration scenario with no observed entry at all for the intended
destination node 2. -/
def rMigAbsent : Reconciler :=
  { rMig with observed := ⟨[(1, ⟨some (attached_location_conf 1 shard0 0)⟩)]⟩ }

/-- A state whose observed map is empty, with node 2 as intended attached. -/
def rEmptyObs : Reconciler :=
  { tenant_shard_id := 7
    shard := shard0
    generation := 5
    intent := { attached := some 2, secondary := [] }
    config := 0
    observed := ⟨[]⟩
    pageservers := [(2, ⟨2, NodeAvailability.Active⟩)] }

/-- A fully converged state: node 1 attached at generation 1, node 2 the
only secondary, observed matching the intent exactly. -/
def rConv : Reconciler :=
  { tenant_shard_id := 7
    shard := shard0
    generation := 1
    intent := { attached := some 1, secondary := [2] }
    config := 0
    observed := ⟨[(1, ⟨some (attached_location_conf 1 shard0 0)⟩),
                  (2, ⟨some (secondary_location_conf shard0 0)⟩)]⟩
    pageservers := [(1, ⟨1, NodeAvailability.Active⟩), (2, ⟨2, NodeAvailability.Active⟩)] }

/-! ### C1: the location-config primitive and observed state -/

/-- C1 (code bug): Reconciler::location_config does set observed[node] to
None before the PUT and leaves it None on a transport error, but on a non-2xx
response it has already inserted observed[node] = Some(config) before
error_for_status propagates the error, contradicting the documented contract
that any non-2xx outcome leaves observed[node] = None.  Evaluated at a
concrete call: the status-error run ends with observed[2] = Some(config)
alongside the propagated error, while the transport-error run ends with
observed[2] = None. -/
theorem C1_status_error_sets_observed :
    (Reconciler.location_config rEmptyObs 2 (attached_location_conf 5 shard0 0)
        PutOutcome.statusErr).2.2 = Except.error RErr.putStatus ∧
    alookup (Reconciler.location_config rEmptyObs 2 (attached_location_conf 5 shard0 0)
        PutOutcome.statusErr).1.observed.locations 2 =
      some ⟨some (attached_location_conf 5 shard0 0)⟩ ∧
    (Reconciler.location_config rEmptyObs 2 (attached_location_conf 5 shard0 0)
        PutOutcome.transportErr).2.2 = Except.error RErr.putTransport ∧
    alookup (Reconciler.location_config rEmptyObs 2 (attached_location_conf 5 shard0 0)
        PutOutcome.transportErr).1.observed.locations 2 = some ⟨none⟩ := by
  decide

/-! ### C6 and C9: the key-to-shard mapping -/

/-- C6 (counterexample): key_to_shard_number does not equal the spec's
"hash plus block quotient, modulo count" mapping, because the source first
casts the 32-bit sum to u8 (`stripe as u8`), i.e. truncates modulo 256,
before the modulo by count.  At the all-zero key with count = 3 and
stripe_size = 1 the hash is 3113619121, so the code yields
3113619121 % 256 % 3 = 0 while the spec mapping yields 3113619121 % 3 = 1. -/
theorem C6_truncation_counterexample :
    key_to_shard_number 3 1 ⟨0, 0, 0, 0, 0, 0⟩ = some 0 ∧
    key_to_shard_number_spec 3 1 ⟨0, 0, 0, 0, 0, 0⟩ = some 1 ∧
    key_to_shard_number 3 1 ⟨0, 0, 0, 0, 0, 0⟩ ≠
      key_to_shard_number_spec 3 1 ⟨0, 0, 0, 0, 0, 0⟩ := by
  decide

/-- C6 (amended): for count > 0 and stripe_size > 0, key_to_shard_number is
the stable 32-bit hash of the key prefix plus block_number / stripe_size,
reduced modulo 2^32, truncated to its low 8 bits (the u8 cast), and then
taken modulo count; and for count = 0 the mapping degenerates to shard 0. -/
theorem C6_mapping_with_truncation (count stripe_size : Nat) (key : Key)
    (hc : 0 < count) (hs : 0 < stripe_size) :
    key_to_shard_number count stripe_size key =
      some ((keyPrefixHash key + key.field6 / stripe_size) % m32 % 256 % count) ∧
    key_to_shard_number 0 stripe_size key = some 0 := by
  constructor
  · simp [key_to_shard_number, Nat.pos_iff_ne_zero.mp hc, Nat.pos_iff_ne_zero.mp hs]
  · simp [key_to_shard_number]

/-- Witness for C6_mapping_with_truncation at the all-zero key, count 3,
stripe_size 1. -/
theorem C6_mapping_witness :
    key_to_shard_number 3 1 ⟨0, 0, 0, 0, 0, 0⟩ =
      some ((keyPrefixHash ⟨0, 0, 0, 0, 0, 0⟩ + 0 / 1) % m32 % 256 % 3) ∧
    key_to_shard_number 0 1 ⟨0, 0, 0, 0, 0, 0⟩ = some 0 :=
  C6_mapping_with_truncation 3 1 ⟨0, 0, 0, 0, 0, 0⟩ (by decide) (by decide)

/-- C9: key_to_shard_number is total and in range whenever stripe_size > 0:
it returns a value (no division or modulus by zero is performed: the modulo
by count is guarded by the count = 0 fast path, and the division is by the
positive stripe_size), and when count > 0 the returned shard number
satisfies within_count. -/
theorem C9_total_and_in_range (count stripe_size : Nat) (key : Key)
    (hs : 0 < stripe_size) :
    ∃ n, key_to_shard_number count stripe_size key = some n ∧
      (0 < count → within_count n count = true) ∧
      (count = 0 → n = 0) := by
  by_cases hc : count = 0
  · exact ⟨0, by simp [key_to_shard_number, hc], by simp [hc], fun _ => rfl⟩
  · refine ⟨(keyPrefixHash key + key.field6 / stripe_size) % m32 % 256 % count,
      by simp [key_to_shard_number, hc, Nat.pos_iff_ne_zero.mp hs], fun h => ?_, fun h => absurd h hc⟩
    simp [within_count]
    exact Nat.mod_lt _ h

/-- Witness for C9_total_and_in_range at the all-zero key, count 3,
stripe_size 1. -/
theorem C9_witness :
    ∃ n, key_to_shard_number 3 1 ⟨0, 0, 0, 0, 0, 0⟩ = some n ∧
      (0 < 3 → within_count n 3 = true) ∧ (3 = 0 → n = 0) :=
  C9_total_and_in_range 3 1 ⟨0, 0, 0, 0, 0, 0⟩ (by decide)

/-! ### C8: the node-configure handler -/

/-- C8: handle_node_configure returns BadRequest without invoking the
service's node_configure whenever the path node_id differs from the body
node_id, and invokes node_configure (returning its result) when they
match. -/
theorem C8_id_mismatch_rejected
    (node_configure : NodeConfigureRequest → Except ApiError Unit)
    (path_node_id : NodeId) (body : NodeConfigureRequest) :
    (path_node_id ≠ body.node_id →
      handle_node_configure node_configure path_node_id body =
        (Except.error ApiError.badRequest, false)) ∧
    (path_node_id = body.node_id →
      handle_node_configure node_configure path_node_id body =
        (node_configure body, true)) := by
  constructor
  · intro h
    simp [handle_node_configure, h]
  · intro h
    simp [handle_node_configure, h]

/-- Witness for C8_id_mismatch_rejected: a mismatched call is rejected
without dispatch, a matched call dispatches. -/
theorem C8_witness :
    handle_node_configure (fun _ => Except.ok ()) 1 ⟨2, none, none⟩ =
      (Except.error ApiError.badRequest, false) ∧
    handle_node_configure (fun _ => Except.ok ()) 3 ⟨3, none, none⟩ =
      (Except.ok (), true) :=
  ⟨(C8_id_mismatch_rejected (fun _ => Except.ok ()) 1 ⟨2, none, none⟩).1 (by decide),
   (C8_id_mismatch_rejected (fun _ => Except.ok ()) 3 ⟨3, none, none⟩).2 rfl⟩

/-! ### C2: the live-migration trigger -/

/-- Well-formedness used by the trigger equivalence: every observed entry
holding an AttachedSingle config resolves in the pageserver snapshot (the
source's expect panics otherwise). -/
def originsResolvable (pageservers : List (NodeId × Node))
    (l : List (NodeId × ObservedStateLocation)) : Bool :=
  l.all fun p =>
    match p.2.conf with
    | some c =>
      if c.mode = LocationConfigMode.AttachedSingle then
        match alookup pageservers p.1 with
        | some _ => true
        | none => false
      else true
    | none => true

/-- Lookup in an association list with nodup keys finds exactly the member
pair's value. -/
theorem alookup_of_mem_nodup {α : Type} :
    ∀ (l : List (Nat × α)) (p : Nat × α),
      (l.map Prod.fst).Nodup → p ∈ l → alookup l p.1 = some p.2 := by
  intro l
  induction l with
  | nil => intro p _ hp; cases hp
  | cons q rest ih =>
    intro p hnd hp
    rw [List.map_cons, List.nodup_cons] at hnd
    rcases List.mem_cons.mp hp with h | h
    · subst h
      simp [alookup]
    · have hne : q.1 ≠ p.1 := by
        intro he
        exact hnd.1 (he ▸ List.mem_map_of_mem Prod.fst h)
      simp only [alookup, if_neg hne]
      exact ih p hnd.2 h

/-- The origin scan of maybe_live_migrate succeeds with some origin exactly
when some observed entry holds an AttachedSingle config on a non-Offline
node, provided every observed AttachedSingle entry resolves in the
snapshot. -/
theorem findOrigin_some_iff (pageservers : List (NodeId × Node)) :
    ∀ l : List (NodeId × ObservedStateLocation),
      originsResolvable pageservers l = true →
      ((∃ x, findOrigin pageservers l = Except.ok (some x)) ↔
        ∃ p ∈ l, (∃ c, p.2.conf = some c ∧ c.mode = LocationConfigMode.AttachedSingle) ∧
          ∃ node, alookup pageservers p.1 = some node ∧
            node.availability ≠ NodeAvailability.Offline) := by
  intro l
  induction l with
  | nil => intro _; simp [findOrigin]
  | cons q rest ih =>
    intro hwf
    rw [originsResolvable, List.all_cons, Bool.and_eq_true] at hwf
    obtain ⟨hw1, hw2⟩ := hwf
    have hwrest : originsResolvable pageservers rest = true := hw2
    obtain ⟨node_id, state⟩ := q
    cases hstate : state.conf with
    | none =>
      simp only [findOrigin, hstate]
      rw [ih hwrest]
      constructor
      · rintro ⟨p, hp, hc, hn⟩
        exact ⟨p, List.mem_cons_of_mem _ hp, hc, hn⟩
      · rintro ⟨p, hp, ⟨c, hc, hm⟩, hn⟩
        rcases List.mem_cons.mp hp with h | h
        · subst h
          rw [hstate] at hc
          cases hc
        · exact ⟨p, h, ⟨c, hc, hm⟩, hn⟩
    | some c =>
      by_cases hmode : c.mode = LocationConfigMode.AttachedSingle
      · simp only [hstate, hmode] at hw1
        simp only [if_true, eq_self_iff_true] at hw1
        cases hps : alookup pageservers node_id with
        | none =>
          rw [hps] at hw1
          cases hw1
        | some node =>
          rw [hps] at hw1
          simp only [findOrigin, hstate, if_pos hmode, hps]
          by_cases hav : node.availability = NodeAvailability.Offline
          · simp only [if_pos hav]
            rw [ih hwrest]
            constructor
            · rintro ⟨p, hp, hc, hn⟩
              exact ⟨p, List.mem_cons_of_mem _ hp, hc, hn⟩
            · rintro ⟨p, hp, ⟨c', hc', hm'⟩, node', hn', ha'⟩
              rcases List.mem_cons.mp hp with h | h
              · exfalso
                subst h
                simp only at hn'
                rw [hps] at hn'
                injection hn' with he
                exact ha' (he ▸ hav)
              · exact ⟨p, h, ⟨c', hc', hm'⟩, node', hn', ha'⟩
          · simp only [if_neg hav]
            constructor
            · intro _
              exact ⟨(node_id, state), List.mem_cons_self _ _,
                ⟨c, hstate, hmode⟩, node, hps, hav⟩
            · intro _
              exact ⟨node_id, rfl⟩
      · simp only [findOrigin, hstate, if_neg hmode]
        rw [ih hwrest]
        constructor
        · rintro ⟨p, hp, hc, hn⟩
          exact ⟨p, List.mem_cons_of_mem _ hp, hc, hn⟩
        · rintro ⟨p, hp, ⟨c', hc', hm'⟩, hn⟩
          rcases List.mem_cons.mp hp with h | h
          · exfalso
            subst h
            simp only at hc'
            rw [hstate] at hc'
            injection hc' with he
            exact hmode (he ▸ hm')
          · exact ⟨p, h, ⟨c', hc', hm'⟩, hn⟩

/-- The fall-through test for the intended destination holds exactly when
its observed entry is absent or holds a Secondary-mode config. -/
theorem destinationDecision_iff (r : Reconciler) (node_id : NodeId) :
    destinationDecision r node_id = true ↔
      (alookup r.observed.locations node_id = none ∨
        ∃ loc, alookup r.observed.locations node_id = some loc ∧
          ∃ c, loc.conf = some c ∧ c.mode = LocationConfigMode.Secondary) := by
  unfold destinationDecision
  cases h : alookup r.observed.locations node_id with
  | none => simp
  | some loc =>
    cases hc : loc.conf with
    | none => simp [hc]
    | some c =>
      by_cases hm : c.mode = LocationConfigMode.Secondary
      · simp [hc, hm]
      · simp [hc, hm]

/-- C2 (counterexample): with the intended destination node 2 entirely
absent from the observed map (so observed[2] is not a Secondary config), the
reconciler still chooses to live migrate from node 1 to node 2, and the
migration actually runs (its trace is nonempty), contradicting the claim
that a migration is attempted only when observed[dst] holds a Secondary
config. -/
theorem C2_absent_destination_triggers :
    Reconciler.live_migrate_target rMigAbsent = Except.ok (some (1, 2)) ∧
    alookup rMigAbsent.observed.locations 2 = none ∧
    (Reconciler.maybe_live_migrate rMigAbsent envAllOk).2.1 ≠ [] := by
  decide

/-- C2 (amended): the reconciler attempts a live migration exactly when
intent.attached = Some(dst), the observed entry for dst is either absent or
holds a config with mode Secondary, and some other node src has an observed
config with mode AttachedSingle and is not Offline in the registry snapshot
(assuming observed keys are unique and AttachedSingle entries resolve in the
snapshot, as the source otherwise panics); in every other case
maybe_live_migrate performs no migration. -/
theorem C2_trigger_iff (r : Reconciler)
    (hwf : originsResolvable r.pageservers r.observed.locations = true)
    (hnd : (r.observed.locations.map Prod.fst).Nodup) :
    (∃ t, Reconciler.live_migrate_target r = Except.ok (some t)) ↔
      ∃ dst, r.intent.attached = some dst ∧
        (alookup r.observed.locations dst = none ∨
          ∃ loc, alookup r.observed.locations dst = some loc ∧
            ∃ c, loc.conf = some c ∧ c.mode = LocationConfigMode.Secondary) ∧
        ∃ p ∈ r.observed.locations, p.1 ≠ dst ∧
          (∃ c, p.2.conf = some c ∧ c.mode = LocationConfigMode.AttachedSingle) ∧
          ∃ node, alookup r.pageservers p.1 = some node ∧
            node.availability ≠ NodeAvailability.Offline := by
  unfold Reconciler.live_migrate_target
  cases hatt : r.intent.attached with
  | none => simp
  | some dst =>
    simp only [Option.some.injEq]
    by_cases hdec : destinationDecision r dst = true
    · simp only [hdec, if_true]
      cases hfo : findOrigin r.pageservers r.observed.locations with
      | error e =>
        constructor
        · rintro ⟨t, ht⟩
          cases ht
        · rintro ⟨dst', hdst', _, p, hp, _, hc, hnode⟩
          exfalso
          have hex : ∃ x, findOrigin r.pageservers r.observed.locations =
              Except.ok (some x) :=
            (findOrigin_some_iff r.pageservers r.observed.locations hwf).mpr
              ⟨p, hp, hc, hnode⟩
          rw [hfo] at hex
          obtain ⟨x, hx⟩ := hex
          cases hx
      | ok oo =>
        cases oo with
        | none =>
          constructor
          · rintro ⟨t, ht⟩
            simp at ht
          · rintro ⟨dst', hdst', _, p, hp, _, hc, hnode⟩
            exfalso
            have hex : ∃ x, findOrigin r.pageservers r.observed.locations =
                Except.ok (some x) :=
              (findOrigin_some_iff r.pageservers r.observed.locations hwf).mpr
                ⟨p, hp, hc, hnode⟩
            rw [hfo] at hex
            obtain ⟨x, hx⟩ := hex
            simp at hx
        | some o =>
          constructor
          · intro _
            refine ⟨dst, rfl, (destinationDecision_iff r dst).mp hdec, ?_⟩
            obtain ⟨p, hp, hc, hnode⟩ :=
              (findOrigin_some_iff r.pageservers r.observed.locations hwf).mp
                ⟨o, hfo⟩
            refine ⟨p, hp, ?_, hc, hnode⟩
            intro he
            have hl : alookup r.observed.locations dst = some p.2 := by
              rw [← he]
              exact alookup_of_mem_nodup _ p hnd hp
            rcases (destinationDecision_iff r dst).mp hdec with h0 | ⟨loc, hloc, c', hc', hm'⟩
            · rw [h0] at hl
              cases hl
            · rw [hloc] at hl
              injection hl with hl2
              obtain ⟨c, hcc, hcm⟩ := hc
              rw [hl2, hcc] at hc'
              injection hc' with hc3
              rw [← hc3, hcm] at hm'
              cases hm'
          · intro _
            exact ⟨(o, dst), rfl⟩
    · simp only [hdec, if_false]
      constructor
      · rintro ⟨t, ht⟩
        simp at ht
      · rintro ⟨dst', hdst', hd, _⟩
        exact absurd ((destinationDecision_iff r dst).mpr (hdst' ▸ hd)) hdec

/-- Witness for C2_trigger_iff at the concrete migration scenario rMig:
the trigger fires because node 2 is intended attached and observed
Secondary while node 1 is observed AttachedSingle and Active. -/
theorem C2_trigger_witness :
    ∃ t, Reconciler.live_migrate_target rMig = Except.ok (some t) :=
  (C2_trigger_iff rMig (by decide) (by decide)).mpr
    ⟨2, rfl,
     Or.inr ⟨⟨some (secondary_location_conf shard0 0)⟩, by decide,
       secondary_location_conf shard0 0, rfl, rfl⟩,
     (1, ⟨some (attached_location_conf 1 shard0 0)⟩), by decide, by decide,
     ⟨attached_location_conf 1 shard0 0, rfl, rfl⟩,
     ⟨1, NodeAvailability.Active⟩, by decide, by decide⟩

/-! ### C10: reconcile is a no-op on converged state -/

/-- C10: when the intent is fully reflected in the observed map — the
intended attached node is observed holding exactly
attached_location_conf(generation, shard, config), every intended secondary
is observed holding exactly secondary_location_conf(shard, config), and
every observed key is among the intent's pageservers — reconcile returns Ok
with an empty trace (no location-config PUT, no compute-hook call) and
leaves the whole state, in particular the generation and the observed map,
unchanged. -/
theorem C10_converged_noop (r : Reconciler) (env : Env) (n : NodeId)
    (hatt : r.intent.attached = some n)
    (hobs : alookup r.observed.locations n =
      some ⟨some (attached_location_conf r.generation r.shard r.config)⟩)
    (hsec : ∀ s ∈ r.intent.secondary,
      alookup r.observed.locations s =
        some ⟨some (secondary_location_conf r.shard r.config)⟩)
    (hkeys : ∀ p ∈ r.observed.locations,
      (IntentState.all_pageservers r.intent).contains p.1 = true) :
    Reconciler.reconcile r env = (r, [], Except.ok ()) := by
  have hdec : destinationDecision r n = false := by
    unfold destinationDecision
    rw [hobs]
    simp [attached_location_conf]
  have htarget : Reconciler.live_migrate_target r = Except.ok none := by
    unfold Reconciler.live_migrate_target
    rw [hatt]
    simp [hdec]
  have hmig : Reconciler.maybe_live_migrate r env = (r, [], Except.ok ()) := by
    unfold Reconciler.maybe_live_migrate
    rw [htarget]
  have hs : secondaryChanges r = [] := by
    unfold secondaryChanges
    refine List.filterMap_eq_nil_iff.mpr ?_
    intro s hsmem
    rw [hsec s hsmem]
    simp
  have hd : detachChanges r = [] := by
    unfold detachChanges
    refine List.filterMap_eq_nil_iff.mpr ?_
    intro nid hmem
    obtain ⟨p, hp, he⟩ := List.mem_map.mp hmem
    rw [← he]
    have hk := hkeys p hp
    simp at hk
    simp [hk]
  have hgen : Reconciler.reconcile_general r env = (r, [], Except.ok ()) := by
    unfold Reconciler.reconcile_general
    rw [hatt]
    simp [hobs, hs, hd, Reconciler.applyChanges]
  unfold Reconciler.reconcile
  rw [hmig]
  simp [hgen]

/-- Witness for C10_converged_noop at the converged fixture rConv. -/
theorem C10_witness :
    Reconciler.reconcile rConv envAllOk = (rConv, [], Except.ok ()) :=
  C10_converged_noop rConv envAllOk 1 rfl (by decide) (by decide) (by decide)

/-! ### C7: a failed compute-hook notification does not fail the reconcile -/

/-- applyChanges only consults the environment through putOutcome. -/
theorem applyChanges_env_eq (e1 e2 : Env) (h : e1.putOutcome = e2.putOutcome) :
    ∀ (cs : List (NodeId × LocationConfig)) (r : Reconciler),
      Reconciler.applyChanges r e1 cs = Reconciler.applyChanges r e2 cs := by
  intro cs
  induction cs with
  | nil => intro r; rfl
  | cons p rest ih =>
    intro r
    obtain ⟨node_id, conf⟩ := p
    simp only [Reconciler.applyChanges, h, ih]

/-- The general-case reconciliation only consults the environment through
putOutcome: the compute-hook outcome never influences it. -/
theorem reconcile_general_env_eq (r : Reconciler) (e1 e2 : Env)
    (h : e1.putOutcome = e2.putOutcome) :
    Reconciler.reconcile_general r e1 = Reconciler.reconcile_general r e2 := by
  unfold Reconciler.reconcile_general Reconciler.update_attached
  simp only [h, applyChanges_env_eq e1 e2 h]

/-- C7: in general-case reconciliation the compute-hook outcome is
irrelevant: the run (final state, trace and result) with a failing
notification equals the run with a succeeding one, so a failed notification
after the attached config is applied never fails the reconcile and the
secondary/detach work proceeds identically; consequently whole reconcile
runs that take the general case (no live migration chosen) are likewise
independent of the notification outcome. -/
theorem C7_notify_failure_does_not_fail (r : Reconciler) (env : Env) (b : Bool) :
    Reconciler.reconcile_general r { env with notifyOk := b } =
      Reconciler.reconcile_general r env ∧
    (Reconciler.live_migrate_target r = Except.ok none →
      Reconciler.reconcile r { env with notifyOk := b } =
        Reconciler.reconcile r env) := by
  have h1 : Reconciler.reconcile_general r { env with notifyOk := b } =
      Reconciler.reconcile_general r env :=
    reconcile_general_env_eq r _ env rfl
  refine ⟨h1, fun ht => ?_⟩
  have hmig : ∀ e : Env, Reconciler.maybe_live_migrate r e = (r, [], Except.ok ()) := by
    intro e
    unfold Reconciler.maybe_live_migrate
    rw [ht]
  unfold Reconciler.reconcile
  rw [hmig, hmig]
  simp [h1]

/-- Witness for C7_notify_failure_does_not_fail: at the converged fixture,
a reconcile with a failing compute hook equals one with a succeeding hook. -/
theorem C7_witness :
    Reconciler.reconcile rConv { envAllOk with notifyOk := false } =
      Reconciler.reconcile rConv envAllOk :=
  (C7_notify_failure_does_not_fail rConv envAllOk false).2 (by decide)

/-! ### Wire-generation infrastructure for C3, C4 and C5 -/

/-- The generation values carried on the wire by the location-config PUTs of
a trace, in order, restricted to PUTs that carry a generation. -/
def wireGenerations : List Event → List Nat
  | [] => []
  | Event.putLoc _ c :: rest =>
    (match c.generation with
     | some g => g :: wireGenerations rest
     | none => wireGenerations rest)
  | Event.getLsns _ :: rest => wireGenerations rest
  | Event.notifyCompute _ _ :: rest => wireGenerations rest

theorem wireGenerations_append (s t : List Event) :
    wireGenerations (s ++ t) = wireGenerations s ++ wireGenerations t := by
  induction s with
  | nil => rfl
  | cons e rest ih =>
    cases e with
    | putLoc n c =>
      cases hg : c.generation with
      | none => simp [wireGenerations, hg, ih]
      | some g => simp [wireGenerations, hg, ih]
    | getLsns n => simp [wireGenerations, ih]
    | notifyCompute t' n => simp [wireGenerations, ih]

/-- Every event emitted by the catch-up polling loop is a timeline-list read
of the destination. -/
theorem await_lsn_events (dest : NodeId) (baseline : List (TimelineId × Lsn)) :
    ∀ polls, ∀ e ∈ (await_lsn dest baseline polls).1, e = Event.getLsns dest := by
  intro polls
  induction polls with
  | nil => intro e he; cases he
  | cons poll rest ih =>
    intro e he
    cases poll with
    | none =>
      simp only [await_lsn] at he
      rcases List.mem_cons.mp he with h | h
      · exact h
      · exact ih e h
    | some latest =>
      by_cases hc : lsnsCaughtUp baseline latest = true
      · simp only [await_lsn, if_pos hc] at he
        rcases List.mem_cons.mp he with h | h
        · exact h
        · cases h
      · simp only [await_lsn, if_neg hc] at he
        rcases List.mem_cons.mp he with h | h
        · exact h
        · exact ih e h

/-- The polling loop emits no location-config PUT, hence no wire
generation. -/
theorem await_lsn_wire (dest : NodeId) (baseline : List (TimelineId × Lsn)) :
    ∀ polls, wireGenerations (await_lsn dest baseline polls).1 = [] := by
  intro polls
  induction polls with
  | nil => rfl
  | cons poll rest ih =>
    cases poll with
    | none => simp only [await_lsn, wireGenerations]; exact ih
    | some latest =>
      by_cases hc : lsnsCaughtUp baseline latest = true
      · simp only [await_lsn, if_pos hc, wireGenerations]
      · simp only [await_lsn, if_neg hc, wireGenerations]; exact ih

/-- The catch-up test holds exactly when every baseline timeline is present
on the destination with latest LSN at least the baseline LSN (so a missing
timeline counts as not caught up). -/
theorem lsnsCaughtUp_iff (baseline latest : List (TimelineId × Lsn)) :
    lsnsCaughtUp baseline latest = true ↔
      ∀ p ∈ baseline, ∃ l, alookup latest p.1 = some l ∧ p.2 ≤ l := by
  unfold lsnsCaughtUp
  rw [List.all_eq_true]
  constructor
  · intro h p hp
    have := h p hp
    cases hl : alookup latest p.1 with
    | none => rw [hl] at this; cases this
    | some l =>
      rw [hl] at this
      exact ⟨l, rfl, of_decide_eq_true this⟩
  · intro h p hp
    obtain ⟨l, hl, hle⟩ := h p hp
    rw [hl]
    exact decide_eq_true hle

/-- Inserting then looking up the same key yields the inserted value. -/
theorem alookup_ainsert_self {α : Type} :
    ∀ (l : List (Nat × α)) (k : Nat) (v : α), alookup (ainsert l k v) k = some v := by
  intro l
  induction l with
  | nil => intro k v; simp [ainsert, alookup]
  | cons q rest ih =>
    intro k v
    by_cases h : q.1 = k
    · simp [ainsert, h, alookup]
    · obtain ⟨qk, qv⟩ := q
      simp only at h
      simp only [ainsert, if_neg h, alookup, if_neg h]
      exact ih k v

/-- location_config never changes the generation. -/
theorem location_config_gen (r : Reconciler) (n : NodeId) (c : LocationConfig)
    (o : PutOutcome) : ((Reconciler.location_config r n c o).1).generation = r.generation := by
  unfold Reconciler.location_config
  repeat' split
  all_goals rfl

/-- applyChanges never changes the generation. -/
theorem applyChanges_gen (env : Env) :
    ∀ (cs : List (NodeId × LocationConfig)) (r : Reconciler),
      ((Reconciler.applyChanges r env cs).1).generation = r.generation := by
  intro cs
  induction cs with
  | nil => intro r; rfl
  | cons p rest ih =>
    intro r
    obtain ⟨node_id, conf⟩ := p
    unfold Reconciler.applyChanges
    dsimp only
    split
    · exact location_config_gen r node_id conf _
    · dsimp only
      rw [ih]
      exact location_config_gen r node_id conf _

/-- The trace of a single location_config call contributes no wire
generation when the config carries none. -/
theorem location_config_wire_none (r : Reconciler) (n : NodeId)
    (c : LocationConfig) (o : PutOutcome) (h : c.generation = none) :
    wireGenerations (Reconciler.location_config r n c o).2.1 = [] := by
  unfold Reconciler.location_config
  repeat' split
  all_goals simp [wireGenerations, h]

/-- Executing queued changes whose configs carry no generation emits no wire
generation. -/
theorem applyChanges_wire (env : Env) :
    ∀ (cs : List (NodeId × LocationConfig)) (r : Reconciler),
      (∀ p ∈ cs, (p.2).generation = none) →
      wireGenerations (Reconciler.applyChanges r env cs).2.1 = [] := by
  intro cs
  induction cs with
  | nil => intro r _; rfl
  | cons p rest ih =>
    intro r hnone
    obtain ⟨node_id, conf⟩ := p
    have hc : conf.generation = none := hnone (node_id, conf) (List.mem_cons_self _ _)
    have hrest : ∀ p ∈ rest, (p.2).generation = none :=
      fun p hp => hnone p (List.mem_cons_of_mem _ hp)
    unfold Reconciler.applyChanges
    dsimp only
    split
    · exact location_config_wire_none r node_id conf _ hc
    · dsimp only
      rw [wireGenerations_append, location_config_wire_none r node_id conf _ hc, ih _ hrest]
      rfl

/-- Every queued secondary change carries no generation. -/
theorem secondaryChanges_gen_none (r : Reconciler) :
    ∀ p ∈ secondaryChanges r, (p.2).generation = none := by
  intro p hp
  unfold secondaryChanges at hp
  obtain ⟨a, _, ha⟩ := List.mem_filterMap.mp hp
  rcases hl : alookup r.observed.locations a with _ | loc
  · rw [hl] at ha
    simp only at ha
    injection ha with ha2
    rw [← ha2]
    rfl
  · rw [hl] at ha
    simp only at ha
    by_cases hc : loc.conf = some (secondary_location_conf r.shard r.config)
    · rw [if_pos hc] at ha
      cases ha
    · rw [if_neg hc] at ha
      injection ha with ha2
      rw [← ha2]
      rfl

/-- Every queued detach change carries no generation. -/
theorem detachChanges_gen_none (r : Reconciler) :
    ∀ p ∈ detachChanges r, (p.2).generation = none := by
  intro p hp
  unfold detachChanges at hp
  obtain ⟨a, _, ha⟩ := List.mem_filterMap.mp hp
  by_cases hc : (IntentState.all_pageservers r.intent).contains a = true
  · rw [if_pos hc] at ha
    cases ha
  · rw [if_neg hc] at ha
    injection ha with ha2
    rw [← ha2]
    rfl

/-- The general-case reconciliation emits at most one wire generation, and
when it emits one it is the bumped generation. -/
theorem reconcile_general_wire (r : Reconciler) (env : Env) :
    wireGenerations (Reconciler.reconcile_general r env).2.1 = [] ∨
    wireGenerations (Reconciler.reconcile_general r env).2.1 =
      [Generation.next r.generation] := by
  have htail : ∀ r' : Reconciler,
      wireGenerations (Reconciler.applyChanges r' env
        (secondaryChanges r' ++ detachChanges r')).2.1 = [] := by
    intro r'
    refine applyChanges_wire env _ r' ?_
    intro p hp
    rcases List.mem_append.mp hp with h | h
    · exact secondaryChanges_gen_none r' p h
    · exact detachChanges_gen_none r' p h
  unfold Reconciler.reconcile_general
  cases hatt : r.intent.attached with
  | none => simp [wireGenerations, wireGenerations_append, htail]
  | some node_id =>
    by_cases hl : ∃ loc, alookup r.observed.locations node_id = some loc ∧
        loc.conf = some (attached_location_conf r.generation r.shard r.config)
    · obtain ⟨loc, hloc, hconf⟩ := hl
      simp [hloc, hconf, wireGenerations, wireGenerations_append, htail]
    · have hupd : wireGenerations
          (Reconciler.update_attached r env node_id
            (attached_location_conf r.generation r.shard r.config)).2.1 = [] ∨
        wireGenerations
          (Reconciler.update_attached r env node_id
            (attached_location_conf r.generation r.shard r.config)).2.1 =
          [Generation.next r.generation] := by
        unfold Reconciler.update_attached Reconciler.location_config
        dsimp only
        repeat' split
        all_goals simp [wireGenerations, wireGenerations_append, attached_location_conf]
      cases hlk : alookup r.observed.locations node_id with
      | none =>
        simp only [hlk]
        rcases hupd with h1 | h1
        · split
          · left; exact h1
          · left
            rw [wireGenerations_append, h1, htail]
            rfl
        · split
          · right; exact h1
          · right
            rw [wireGenerations_append, h1, htail]
            rfl
      | some loc =>
        have hne : ¬ loc.conf = some (attached_location_conf r.generation r.shard r.config) := by
          intro hcon
          exact hl ⟨loc, hlk, hcon⟩
        simp only [hlk, if_neg hne]
        rcases hupd with h1 | h1
        · split
          · left; exact h1
          · left
            rw [wireGenerations_append, h1, htail]
            rfl
        · split
          · right; exact h1
          · right
            rw [wireGenerations_append, h1, htail]
            rfl

/-- The migration pair chosen by maybe_live_migrate has the intended
attached node as its destination. -/
theorem live_migrate_target_dst (r : Reconciler) (src dst : NodeId)
    (h : Reconciler.live_migrate_target r = Except.ok (some (src, dst))) :
    r.intent.attached = some dst := by
  unfold Reconciler.live_migrate_target at h
  cases hatt : r.intent.attached with
  | none => rw [hatt] at h; cases h
  | some n =>
    rw [hatt] at h
    simp only at h
    by_cases hdec : destinationDecision r n = true
    · rw [if_pos hdec] at h
      cases hfo : findOrigin r.pageservers r.observed.locations with
      | error e => rw [hfo] at h; cases h
      | ok oo =>
        cases oo with
        | none => rw [hfo] at h; simp at h
        | some o =>
          rw [hfo] at h
          simp only [Except.ok.injEq, Option.some.injEq, Prod.mk.injEq] at h
          exact congrArg some h.2
    · rw [if_neg hdec] at h
      simp at h

/-- head? of an append whose left part has a head. -/
theorem head?_append_some {α : Type} (l l' : List α) (a : α) (h : l.head? = some a) :
    (l ++ l').head? = some a := by
  cases l with
  | nil => cases h
  | cons x rest => exact h

/-- The per-event generation discipline of C4, as a boolean predicate over a
trace relative to the generation g at the start of a live migration. -/
def putGenOkEvent (g : Generation) (e : Event) : Bool :=
  match e with
  | Event.putLoc _ c =>
    (if c.mode = LocationConfigMode.AttachedMulti
     then decide (c.generation = some (Generation.next g)) else true) &&
    (if c.mode = LocationConfigMode.AttachedStale
     then decide (c.generation = some g) else true)
  | _ => true

theorem all_putGenOk_await (g : Generation) (dest : NodeId)
    (baseline : List (TimelineId × Lsn)) (polls : List (Option (List (TimelineId × Lsn)))) :
    (await_lsn dest baseline polls).1.all (putGenOkEvent g) = true := by
  rw [List.all_eq_true]
  intro e he
  rw [await_lsn_events dest baseline polls e he]
  rfl

/-- Every PUT in any live-migration run obeys the generation discipline:
an AttachedMulti config carries the bumped generation, an AttachedStale
config carries the unbumped one. -/
theorem live_migrate_put_gens (r : Reconciler) (src dst : NodeId) (env : Env) :
    (Reconciler.live_migrate r src dst env).2.1.all
      (putGenOkEvent r.generation) = true := by
  unfold Reconciler.live_migrate
  dsimp only
  repeat' split
  all_goals simp [List.all_append, List.all_cons, all_putGenOk_await,
    putGenOkEvent, build_location_config, Generation.next]

/-- The possible wire-generation sequences of a live-migration run: at most
the unbumped generation, then the bumped one twice. -/
theorem live_migrate_wire (r : Reconciler) (src dst : NodeId) (env : Env) :
    wireGenerations (Reconciler.live_migrate r src dst env).2.1 = [] ∨
    wireGenerations (Reconciler.live_migrate r src dst env).2.1 = [r.generation] ∨
    wireGenerations (Reconciler.live_migrate r src dst env).2.1 =
      [r.generation, Generation.next r.generation] ∨
    wireGenerations (Reconciler.live_migrate r src dst env).2.1 =
      [r.generation, Generation.next r.generation, Generation.next r.generation] := by
  unfold Reconciler.live_migrate
  dsimp only
  repeat' split
  all_goals simp [wireGenerations, wireGenerations_append, await_lsn_wire,
    build_location_config]

/-- Facts about a successful live-migration run: the generation ends bumped,
intent, shard and config are untouched, the destination is observed holding
the final AttachedSingle config at the bumped generation, and the wire
generations are exactly [g, g+1, g+1]. -/
theorem live_migrate_ok (r : Reconciler) (src dst : NodeId) (env : Env)
    (h : (Reconciler.live_migrate r src dst env).2.2 = Except.ok ()) :
    (Reconciler.live_migrate r src dst env).1.generation = Generation.next r.generation ∧
    (Reconciler.live_migrate r src dst env).1.intent = r.intent ∧
    (Reconciler.live_migrate r src dst env).1.shard = r.shard ∧
    (Reconciler.live_migrate r src dst env).1.config = r.config ∧
    alookup (Reconciler.live_migrate r src dst env).1.observed.locations dst =
      some ⟨some (attached_location_conf (Generation.next r.generation) r.shard r.config)⟩ ∧
    wireGenerations (Reconciler.live_migrate r src dst env).2.1 =
      [r.generation, Generation.next r.generation, Generation.next r.generation] := by
  unfold Reconciler.live_migrate at h ⊢
  dsimp only at h ⊢
  by_cases hod : src = dst
  · rw [if_pos hod] at h
    cases h
  rw [if_neg hod] at h ⊢
  cases h1 : env.putOutcome src (build_location_config r.shard r.config
      LocationConfigMode.AttachedStale (some r.generation) none) with
  | transportErr => rw [h1] at h; cases h
  | statusErr => rw [h1] at h; cases h
  | ok2xx =>
    rw [h1] at h
    dsimp only at h ⊢
    cases h2 : env.originLsns with
    | none => rw [h2] at h; cases h
    | some baseline =>
      rw [h2] at h
      dsimp only at h ⊢
      cases h3 : env.putOutcome dst (build_location_config r.shard r.config
          LocationConfigMode.AttachedMulti (some (Generation.next r.generation)) none) with
      | transportErr => rw [h3] at h; cases h
      | statusErr => rw [h3] at h; cases h
      | ok2xx =>
        rw [h3] at h
        dsimp only at h ⊢
        cases h4 : (await_lsn dst baseline env.destPolls).2 with
        | none => rw [h4] at h; cases h
        | some u =>
          rw [h4] at h
          dsimp only at h ⊢
          by_cases h5 : env.notifyOk = false
          · rw [if_pos h5] at h
            cases h
          rw [if_neg h5] at h ⊢
          cases h6 : env.putOutcome src (build_location_config r.shard r.config
              LocationConfigMode.Secondary none (some { warm := true })) with
          | transportErr => rw [h6] at h; cases h
          | statusErr => rw [h6] at h; cases h
          | ok2xx =>
            rw [h6] at h
            dsimp only at h ⊢
            cases h7 : env.putOutcome dst (build_location_config r.shard r.config
                LocationConfigMode.AttachedSingle (some (Generation.next r.generation)) none) with
            | transportErr => rw [h7] at h; cases h
            | statusErr => rw [h7] at h; cases h
            | ok2xx =>
              refine ⟨rfl, rfl, rfl, rfl, ?_, ?_⟩
              · rw [alookup_ainsert_self]
                rfl
              · simp [wireGenerations, wireGenerations_append, await_lsn_wire,
                  build_location_config]

/-! ### C3: the live-migration sequence -/

/-- C3: when every step succeeds, live_migrate issues exactly, in order:
the PUT to the origin with AttachedStale carrying generation g; the read of
the origin's per-timeline last-record LSNs; (the generation bump to g+1);
the PUT to the destination with AttachedMulti carrying g+1; the polling of
the destination's timeline list (pt); the compute-hook notification of
(tenant_shard_id, dst); the PUT to the origin with Secondary (warm, no
generation); and the PUT to the destination with AttachedSingle carrying
the same g+1 — each step awaiting success before the next (any earlier
failure cuts the run short).  The polling events are all timeline-list
reads of the destination, and the catch-up test it waits for holds exactly
when every baseline timeline exists on the destination with latest LSN at
least its baseline LSN (a missing timeline counting as not caught up). -/
theorem C3_live_migrate_sequence (r : Reconciler) (src dst : NodeId) (env : Env)
    (baseline : List (TimelineId × Lsn)) (pt : List Event)
    (hne : src ≠ dst)
    (hput : ∀ n c, env.putOutcome n c = PutOutcome.ok2xx)
    (hlsns : env.originLsns = some baseline)
    (hpoll : await_lsn dst baseline env.destPolls = (pt, some ()))
    (hnotify : env.notifyOk = true) :
    Reconciler.live_migrate r src dst env =
      ({ r with
          generation := Generation.next r.generation
          observed := ⟨ainsert (ainsert r.observed.locations src
            ⟨some (build_location_config r.shard r.config LocationConfigMode.Secondary
              none (some { warm := true }))⟩) dst
            ⟨some (build_location_config r.shard r.config LocationConfigMode.AttachedSingle
              (some (Generation.next r.generation)) none)⟩⟩ },
       [Event.putLoc src (build_location_config r.shard r.config
          LocationConfigMode.AttachedStale (some r.generation) none),
        Event.getLsns src,
        Event.putLoc dst (build_location_config r.shard r.config
          LocationConfigMode.AttachedMulti (some (Generation.next r.generation)) none)]
        ++ pt ++
       [Event.notifyCompute r.tenant_shard_id dst,
        Event.putLoc src (build_location_config r.shard r.config
          LocationConfigMode.Secondary none (some { warm := true })),
        Event.putLoc dst (build_location_config r.shard r.config
          LocationConfigMode.AttachedSingle (some (Generation.next r.generation)) none)],
       Except.ok ()) ∧
    (∀ e ∈ pt, e = Event.getLsns dst) ∧
    (∀ latest, lsnsCaughtUp baseline latest = true ↔
      ∀ p ∈ baseline, ∃ l, alookup latest p.1 = some l ∧ p.2 ≤ l) := by
  have hpt : (await_lsn dst baseline env.destPolls).1 = pt := by rw [hpoll]
  refine ⟨?_, ?_, fun latest => lsnsCaughtUp_iff baseline latest⟩
  · unfold Reconciler.live_migrate
    dsimp only
    rw [if_neg hne]
    simp only [hput, hlsns, hpoll, hnotify]
    simp [List.append_assoc]
  · intro e he
    rw [← hpt] at he
    exact await_lsn_events dst baseline env.destPolls e he

/-- Witness for C3_live_migrate_sequence at the migration fixture: the
result and the full emitted trace of the all-success run. -/
theorem C3_witness :
    (Reconciler.live_migrate rMig 1 2 envAllOk).2.2 = Except.ok () ∧
    (Reconciler.live_migrate rMig 1 2 envAllOk).2.1 =
      [Event.putLoc 1 (build_location_config shard0 0
          LocationConfigMode.AttachedStale (some 1) none),
       Event.getLsns 1,
       Event.putLoc 2 (build_location_config shard0 0
          LocationConfigMode.AttachedMulti (some 2) none),
       Event.getLsns 2,
       Event.notifyCompute 7 2,
       Event.putLoc 1 (build_location_config shard0 0
          LocationConfigMode.Secondary none (some { warm := true })),
       Event.putLoc 2 (build_location_config shard0 0
          LocationConfigMode.AttachedSingle (some 2) none)] := by
  have h := C3_live_migrate_sequence rMig 1 2 envAllOk [] [Event.getLsns 2]
    (by decide) (fun _ _ => rfl) rfl rfl rfl
  constructor
  · rw [h.1]
  · rw [h.1]
    rfl

/-! ### C4: the generation is incremented before newly-attaching PUTs -/

/-- The attached-update arm issues the bumped AttachedSingle config as its
first wire event and leaves the generation bumped. -/
theorem update_attached_first_put (r : Reconciler) (env : Env) (node_id : NodeId)
    (w : LocationConfig) (hps : alookup r.pageservers node_id ≠ none) :
    (Reconciler.update_attached r env node_id w).2.1.head? =
      some (Event.putLoc node_id { w with generation := some (Generation.next r.generation) }) ∧
    (Reconciler.update_attached r env node_id w).1.generation =
      Generation.next r.generation := by
  unfold Reconciler.update_attached Reconciler.location_config
  dsimp only
  cases hl : alookup r.pageservers node_id with
  | none => exact absurd hl hps
  | some node =>
    dsimp only
    repeat' split
    all_goals simp

/-- C4: the generation is incremented before any location-config call that
newly promotes a node to attached.  In any live-migration run, every PUT
carrying an AttachedMulti config carries the bumped generation g+1 and every
PUT carrying an AttachedStale config carries the unbumped g.  In
general-case reconciliation, when the observed config of the intended
attached node differs from the desired attached config (or is absent), the
first wire event is the PUT of the AttachedSingle config carrying the
advanced generation next(g), and the reconciler's generation ends advanced
to next(g). -/
theorem C4_generation_incremented_before_attach (r : Reconciler) :
    (∀ src dst env n c,
      Event.putLoc n c ∈ (Reconciler.live_migrate r src dst env).2.1 →
        (c.mode = LocationConfigMode.AttachedMulti →
          c.generation = some (Generation.next r.generation)) ∧
        (c.mode = LocationConfigMode.AttachedStale →
          c.generation = some r.generation)) ∧
    (∀ env node_id,
      r.intent.attached = some node_id →
      (∀ loc, alookup r.observed.locations node_id = some loc →
        loc.conf ≠ some (attached_location_conf r.generation r.shard r.config)) →
      alookup r.pageservers node_id ≠ none →
      (Reconciler.reconcile_general r env).2.1.head? =
        some (Event.putLoc node_id
          (attached_location_conf (Generation.next r.generation) r.shard r.config)) ∧
      (Reconciler.reconcile_general r env).1.generation =
        Generation.next r.generation) := by
  constructor
  · intro src dst env n c hmem
    have hall := live_migrate_put_gens r src dst env
    rw [List.all_eq_true] at hall
    have he := hall _ hmem
    simp only [putGenOkEvent, Bool.and_eq_true] at he
    constructor
    · intro hmode
      have h1 := he.1
      rw [if_pos hmode] at h1
      exact of_decide_eq_true h1
    · intro hmode
      have h2 := he.2
      rw [if_pos hmode] at h2
      exact of_decide_eq_true h2
  · intro env node_id hatt hobs hps
    have hupd := update_attached_first_put r env node_id
      (attached_location_conf r.generation r.shard r.config) hps
    have hconf : ({ attached_location_conf r.generation r.shard r.config with
        generation := some (Generation.next r.generation) } : LocationConfig) =
        attached_location_conf (Generation.next r.generation) r.shard r.config := rfl
    rw [hconf] at hupd
    unfold Reconciler.reconcile_general
    rw [hatt]
    dsimp only
    cases hlk : alookup r.observed.locations node_id with
    | none =>
      dsimp only
      split
      · exact hupd
      · constructor
        · refine head?_append_some _ _ _ hupd.1
        · rw [applyChanges_gen]
          exact hupd.2
    | some loc =>
      have hne : ¬ loc.conf = some (attached_location_conf r.generation r.shard r.config) :=
        hobs loc hlk
      dsimp only
      rw [if_neg hne]
      split
      · exact hupd
      · constructor
        · refine head?_append_some _ _ _ hupd.1
        · rw [applyChanges_gen]
          exact hupd.2

/-- Witness for C4_generation_incremented_before_attach at the empty-observed
fixture: the first wire event carries generation 6 = next 5 and the run ends
at generation 6. -/
theorem C4_witness :
    (Reconciler.reconcile_general rEmptyObs envAllOk).2.1.head? =
      some (Event.putLoc 2 (attached_location_conf 6 shard0 0)) ∧
    (Reconciler.reconcile_general rEmptyObs envAllOk).1.generation = 6 :=
  (C4_generation_incremented_before_attach rEmptyObs).2 envAllOk 2 rfl
    (fun loc h => by simp [alookup] at h) (by decide)

/-! ### C5: the wire generation sequence within a reconcile run -/

/-- C5 (counterexample): in a successful live-migration reconcile run the
wire generations are [1, 2, 2] — the AttachedMulti PUT and the final
AttachedSingle PUT carry the same bumped generation — so the sequence of
generation values carried on the wire is not strictly increasing. -/
theorem C5_not_strictly_increasing :
    wireGenerations (Reconciler.reconcile rMig envAllOk).2.1 = [1, 2, 2] ∧
    ¬ List.Chain' (fun a b => a < b)
      (wireGenerations (Reconciler.reconcile rMig envAllOk).2.1) := by
  have h : wireGenerations (Reconciler.reconcile rMig envAllOk).2.1 = [1, 2, 2] := by
    decide
  refine ⟨h, ?_⟩
  rw [h]
  simp [List.chain'_cons]

/-- The general case emits no wire generation when the intended attached
node is already observed holding the wanted attached config. -/
theorem reconcile_general_wire_converged (r : Reconciler) (env : Env) (n : NodeId)
    (hatt : r.intent.attached = some n)
    (hobs : alookup r.observed.locations n =
      some ⟨some (attached_location_conf r.generation r.shard r.config)⟩) :
    wireGenerations (Reconciler.reconcile_general r env).2.1 = [] := by
  have htail : wireGenerations (Reconciler.applyChanges r env
      (secondaryChanges r ++ detachChanges r)).2.1 = [] := by
    refine applyChanges_wire env _ r ?_
    intro p hp
    rcases List.mem_append.mp hp with h | h
    · exact secondaryChanges_gen_none r p h
    · exact detachChanges_gen_none r p h
  unfold Reconciler.reconcile_general
  rw [hatt]
  dsimp only
  rw [hobs]
  dsimp only
  rw [if_pos rfl]
  dsimp only
  exact htail

/-- C5 (amended): per shard, within a single reconcile run, the sequence of
generation values carried on the wire by the reconciler's location-config
PUTs (over those PUTs that carry a generation) is non-decreasing; it fails
to be strictly increasing only in that the AttachedMulti PUT and the final
AttachedSingle PUT of a live migration carry the same post-bump
generation. -/
theorem C5_wire_generations_nondecreasing (r : Reconciler) (env : Env) :
    List.Chain' (fun a b => a ≤ b)
      (wireGenerations (Reconciler.reconcile r env).2.1) := by
  unfold Reconciler.reconcile
  dsimp only
  cases htr : Reconciler.live_migrate_target r with
  | error e =>
    have hmig : Reconciler.maybe_live_migrate r env = (r, [], Except.error e) := by
      unfold Reconciler.maybe_live_migrate
      rw [htr]
    rw [hmig]
    dsimp only
    simp [wireGenerations]
  | ok oo =>
    cases oo with
    | none =>
      have hmig : Reconciler.maybe_live_migrate r env = (r, [], Except.ok ()) := by
        unfold Reconciler.maybe_live_migrate
        rw [htr]
      rw [hmig]
      dsimp only
      rcases reconcile_general_wire r env with h | h
      · simp [h]
      · simp [h]
    | some p =>
      obtain ⟨src, dst⟩ := p
      have hmig : Reconciler.maybe_live_migrate r env =
          Reconciler.live_migrate r src dst env := by
        unfold Reconciler.maybe_live_migrate
        rw [htr]
      rw [hmig]
      cases hres : (Reconciler.live_migrate r src dst env).2.2 with
      | error e =>
        dsimp only
        rcases live_migrate_wire r src dst env with h | h | h | h <;>
          simp [h, List.chain'_cons, Generation.next]
      | ok u =>
        cases u
        obtain ⟨hg, hint, hsh, hcf, hobs, hwg⟩ := live_migrate_ok r src dst env hres
        have hdst : r.intent.attached = some dst := live_migrate_target_dst r src dst htr
        have hgenwire : wireGenerations
            (Reconciler.reconcile_general (Reconciler.live_migrate r src dst env).1 env).2.1 = [] := by
          refine reconcile_general_wire_converged _ env dst ?_ ?_
          · rw [hint]
            exact hdst
          · rw [hobs, hg, hsh, hcf]
        dsimp only
        rw [wireGenerations_append, hwg, hgenwire]
        simp [List.chain'_cons, Generation.next]

end Neon
